import Mathlib

/-!
Verification of the preprocessing / feature-preparation / training pipeline of
the Customer-Churn-Prediction repository (`scripts/preprocessing.py`,
`scripts/churn_model.py`).

A pandas DataFrame is embedded column-major as an association list from column
names to lists of cells.  A cell is a missing value (NaN / None), a rational
number (standing for a Python float), a string, or a standardized value
produced by `StandardScaler.transform` (kept symbolically, see `Cell.scaled`).
Fallible pandas / sklearn operations return `Except PyError`.
-/

/-- Exceptions raised by the pandas / sklearn operations used in the source. -/
inductive PyError where
  | keyError (key : String)
  | typeError (msg : String)
  | valueError (msg : String)
deriving DecidableEq, Repr

deriving instance DecidableEq for Except

/-- One cell of a DataFrame.  `scaled x mean svar` records the result of
`StandardScaler.transform` applied to the value `x` for a column with fitted
mean `mean` and fitted population variance `svar` (with `svar` nonzero): it
denotes the real number `(x - mean) / sqrt svar`.  The square root is kept
symbolic; the constructor is injective in its data, which is all the theorems
below use. -/
inductive Cell where
  | na : Cell
  | num (q : ℚ) : Cell
  | str (s : String) : Cell
  | scaled (x mean svar : ℚ) : Cell
deriving DecidableEq, Repr

def Cell.isNa : Cell → Bool
  | .na => true
  | _ => false

def Cell.isStr : Cell → Bool
  | .str _ => true
  | _ => false

/-- A DataFrame, column-major: column name paired with the column's cells.
Column order is the pandas column order. -/
abbrev Table := List (String × List Cell)

/-- Column lookup (`df[name]` read access): first column with the given name. -/
def getCol (t : Table) (n : String) : Option (List Cell) :=
  match t with
  | [] => none
  | (m, c) :: rest => if m = n then some c else getCol rest n

def hasCol (t : Table) (n : String) : Bool :=
  (getCol t n).isSome

/-- Column assignment (`df[name] = col`): replaces the column when present,
appends it at the end of the column order otherwise, as pandas does. -/
def setCol : Table → String → List Cell → Table
  | [], n, col => [(n, col)]
  | (m, c) :: rest, n, col =>
    if m = n then (m, col) :: rest else (m, c) :: setCol rest n col

/-- Number of rows, as `df.values` would see it (length of the first column). -/
def nrows (t : Table) : Nat :=
  match t with
  | [] => 0
  | (_, c) :: _ => c.length

/-- Count of cells that `pd.isnull` reports as missing (strings are not null). -/
def countNa (col : List Cell) : Nat :=
  (col.filter Cell.isNa).length

/-- Columns dropped by `df.drop(columns=location_cols, errors='ignore')`. -/
def locationCols : List String :=
  ["City", "State", "Country", "Zip Code", "Lat Long", "Latitude", "Longitude"]

def dropCols (names : List String) : Table → Table
  | [] => []
  | (n, c) :: rest =>
    if names.contains n then dropCols names rest else (n, c) :: dropCols names rest

/-- Digit-string value (helper for `parseRat`). -/
def digitsVal (cs : List Char) : Nat :=
  cs.foldl (fun n c => n * 10 + (c.toNat - 48)) 0

/-- Unsigned decimal literal: digits, optionally with one decimal point. -/
def parseUnsigned (cs : List Char) : Option ℚ :=
  let ip := cs.takeWhile (fun c => c ≠ '.')
  let rest := cs.dropWhile (fun c => c ≠ '.')
  match rest with
  | [] =>
    if ip ≠ [] ∧ ip.all Char.isDigit then some ((digitsVal ip : ℚ)) else none
  | _ :: fp =>
    if (ip ≠ [] ∨ fp ≠ []) ∧ ip.all Char.isDigit ∧ fp.all Char.isDigit then
      some ((digitsVal ip : ℚ) + (digitsVal fp : ℚ) / ((10 : ℚ) ^ fp.length))
    else none

/-- String-to-number conversion as performed by `pd.to_numeric` on one value:
surrounding whitespace is tolerated, an optional sign and a plain decimal
literal are accepted; anything else (currency symbols, letters, separators)
fails.  Exponent forms are not modelled; no input below uses them. -/
def parseRat (s : String) : Option ℚ :=
  let cs := ((s.toList.dropWhile (fun c => c = ' ')).reverse.dropWhile
      (fun c => c = ' ')).reverse
  match cs with
  | '-' :: rest => (parseUnsigned rest).map (fun q => -q)
  | '+' :: rest => parseUnsigned rest
  | _ => parseUnsigned cs

/-- One cell under `pd.to_numeric(col, errors='coerce')`: numbers and missing
values pass through, strings are parsed and become missing on failure. -/
def coerceCell : Cell → Cell
  | .na => .na
  | .num q => .num q
  | .str s =>
    match parseRat s with
    | some q => .num q
    | none => .na
  | .scaled x m v => .scaled x m v

/-- Python multiplication of two cell values, as used in the imputation
lambda `row['Monthly Charges'] * row['Tenure Months']`.  NaN propagates;
a string operand raises `TypeError` for float operands (Python string
repetition against integers is not modelled; no theorem below exercises a
string operand here). -/
def cellMul : Cell → Cell → Except PyError Cell
  | .num a, .num b => .ok (.num (a * b))
  | .na, .num _ => .ok .na
  | .num _, .na => .ok .na
  | .na, .na => .ok .na
  | _, _ => .error (.typeError "unsupported operand type for *")

/-- Row-wise imputation pass of `df_processed.apply(..., axis=1)` over the
coerced Total Charges column: a missing balance becomes fee times tenure,
a present balance is returned unchanged.  Columns of one DataFrame always
have equal lengths, so the final (ragged) case is unreachable there. -/
def imputeList : List Cell → List Cell → List Cell → Except PyError (List Cell)
  | [], _, _ => .ok []
  | c :: cs, m :: ms, t :: ts =>
    match (if c.isNa then cellMul m t else .ok c) with
    | .error e => .error e
    | .ok v =>
      match imputeList cs ms ts with
      | .error e => .error e
      | .ok vs => .ok (v :: vs)
  | _ :: _, _, _ => .ok []

/-- Lines 33-49 of `preprocessing.py`: read `df['Total Charges']` (KeyError
when absent), and only when the column already contains a true missing value,
coerce it with `pd.to_numeric(errors='coerce')` and impute each still-missing
entry as `Monthly Charges * Tenure Months` row-wise (KeyError when one of
those columns is absent, raised from the row lambda). -/
def handleTotalCharges (t : Table) : Except PyError Table :=
  match getCol t "Total Charges" with
  | none => .error (.keyError "Total Charges")
  | some col =>
    if countNa col = 0 then .ok t
    else
      let coerced := col.map coerceCell
      let t1 := setCol t "Total Charges" coerced
      match getCol t1 "Monthly Charges" with
      | none => .error (.keyError "Monthly Charges")
      | some mc =>
        match getCol t1 "Tenure Months" with
        | none => .error (.keyError "Tenure Months")
        | some tm =>
          match imputeList coerced mc tm with
          | .error e => .error e
          | .ok imputed => .ok (setCol t1 "Total Charges" imputed)

/-- The fixed raw-to-banking column rename of lines 52-66. -/
def columnMapping : List (String × String) :=
  [("Monthly Charges", "MonthlyBankFees"),
   ("Total Charges", "TotalBalance"),
   ("Tenure Months", "YearsWithBank"),
   ("Phone Service", "DebitCard"),
   ("Multiple Lines", "CreditCard"),
   ("Internet Service", "OnlineBanking"),
   ("Online Security", "SecureLogin2FA"),
   ("Online Backup", "AutomaticSavings"),
   ("Device Protection", "FraudProtection"),
   ("Tech Support", "CustomerSupport"),
   ("Streaming TV", "BillPay"),
   ("Streaming Movies", "MobilePayments")]

def renameOne (n : String) : String :=
  match columnMapping.lookup n with
  | some m => m
  | none => n

def renameCols (t : Table) : Table :=
  t.map (fun p => (renameOne p.1, p.2))

/-- Division of one cell by 12, as in `df['YearsWithBank'] / 12`: NaN
propagates, a string raises `TypeError`. -/
def div12 : Cell → Except PyError Cell
  | .num q => .ok (.num (q / 12))
  | .na => .ok .na
  | _ => .error (.typeError "unsupported operand type for /")

/-- Pure value of `div12` on the cells where it succeeds. -/
def div12Val : Cell → Cell
  | .num q => .num (q / 12)
  | c => c

def mapExcept (f : Cell → Except PyError Cell) : List Cell → Except PyError (List Cell)
  | [] => .ok []
  | c :: cs =>
    match f c with
    | .error e => .error e
    | .ok v =>
      match mapExcept f cs with
      | .error e => .error e
      | .ok vs => .ok (v :: vs)

/-- Line 69: `df['YearsWithBank'] = df['YearsWithBank'] / 12` (KeyError when
the column is absent, i.e. when the raw table had no `Tenure Months`). -/
def convertTenure (t : Table) : Except PyError Table :=
  match getCol t "YearsWithBank" with
  | none => .error (.keyError "YearsWithBank")
  | some col =>
    match mapExcept div12 col with
    | .error e => .error e
    | .ok col2 => .ok (setCol t "YearsWithBank" col2)

/-- Names excluded from categorical encoding (line 76). -/
def excludedCats : List String :=
  ["CustomerID", "Churn Label", "Churn Reason"]

/-- Object dtype test of `select_dtypes(include=['object'])`: a column holds
strings exactly when at least one of its cells is a string. -/
def isObjectCol (col : List Cell) : Bool :=
  col.any Cell.isStr

def cellStr? : Cell → Option String
  | .str s => some s
  | _ => none

/-- Lexicographic order on code points, the order Python string comparison
and hence `np.unique` sorting uses. -/
def charsLt : List Char → List Char → Bool
  | [], [] => false
  | [], _ :: _ => true
  | _ :: _, [] => false
  | a :: as, b :: bs =>
    if a.toNat < b.toNat then true
    else if b.toNat < a.toNat then false
    else charsLt as bs

def strLt (a b : String) : Bool :=
  charsLt a.toList b.toList

/-- Sorted insertion keeping the list strictly increasing (dedup). -/
def insertClass (s : String) : List String → List String
  | [] => [s]
  | t :: ts =>
    if strLt s t then s :: t :: ts
    else if s = t then t :: ts
    else t :: insertClass s ts

/-- The fitted classes of `LabelEncoder.fit`: the sorted distinct values, as
`np.unique` produces them. -/
def sortedClasses (l : List String) : List String :=
  l.foldl (fun acc s => insertClass s acc) []

def indexOfStr (s : String) : List String → Nat
  | [] => 0
  | t :: ts => if t = s then 0 else indexOfStr s ts + 1

def colClasses (col : List Cell) : List String :=
  sortedClasses (col.filterMap cellStr?)

/-- The transformed column of `LabelEncoder.fit_transform` on an all-string
column: each value replaced by its index in the sorted class list. -/
def encodedColumn (col : List Cell) : List Cell :=
  col.map (fun c =>
    match cellStr? c with
    | some s => .num ((indexOfStr s (colClasses col) : ℚ))
    | none => c)

/-- One `le.fit_transform(df[col])` call.  `np.unique` sorts the values, and
sorting an object column that mixes strings with non-strings (floats, NaN)
raises `TypeError` in Python 3. -/
def encodeCol (col : List Cell) : Except PyError (List Cell × List String) :=
  if col.all Cell.isStr then .ok (encodedColumn col, colClasses col)
  else .error (.typeError "unorderable types in object column")

/-- Lines 74-81: every object-dtype column except the excluded three is
freshly fitted and replaced by its integer codes; the fitted classes are
recorded under the key `col + \x22_encoder\x22` in loop (column) order. -/
def encodeCategoricals : Table → Except PyError (Table × List (String × List String))
  | [] => .ok ([], [])
  | (n, c) :: rest =>
    if isObjectCol c && !(excludedCats.contains n) then
      match encodeCol c with
      | .error e => .error e
      | .ok (c2, classes) =>
        match encodeCategoricals rest with
        | .error e => .error e
        | .ok (rest2, trs) => .ok ((n, c2) :: rest2, (n ++ "_encoder", classes) :: trs)
    else
      match encodeCategoricals rest with
      | .error e => .error e
      | .ok (rest2, trs) => .ok ((n, c) :: rest2, trs)

def numericalCols : List String :=
  ["YearsWithBank", "MonthlyBankFees", "TotalBalance"]

def cellNum? : Cell → Option ℚ
  | .num q => some q
  | _ => none

/-- Fitted mean of `StandardScaler` on one column: mean of the non-missing
values (NaN is disregarded in fit). -/
def colMean (col : List Cell) : ℚ :=
  let xs := col.filterMap cellNum?
  if xs.length = 0 then 0 else xs.sum / (xs.length : ℚ)

/-- Fitted population variance of `StandardScaler` on one column. -/
def colVar (col : List Cell) : ℚ :=
  let xs := col.filterMap cellNum?
  if xs.length = 0 then 0
  else (xs.map (fun x => (x - colMean col) ^ 2)).sum / (xs.length : ℚ)

/-- Transform step of `StandardScaler` on one cell: NaN is maintained; a zero-variance
column gets scale 1 (sklearn's convention), otherwise the value is divided by
the square root of the variance, recorded symbolically by `Cell.scaled`. -/
def scaleCell (m v : ℚ) : Cell → Cell
  | .num x => if v = 0 then .num (x - m) else .scaled x m v
  | c => c

/-- Lines 84-87: `scaler.fit_transform(df[numerical_cols])`.  A missing column
raises KeyError; fitting on an empty (zero-row) frame raises ValueError.
Returns the scaled table together with the fitted per-column (mean, variance)
parameters. -/
def scaleNumericals (t : Table) : Except PyError (Table × List (String × ℚ × ℚ)) :=
  match getCol t "YearsWithBank" with
  | none => .error (.keyError "YearsWithBank")
  | some c1 =>
    match getCol t "MonthlyBankFees" with
    | none => .error (.keyError "MonthlyBankFees")
    | some c2 =>
      match getCol t "TotalBalance" with
      | none => .error (.keyError "TotalBalance")
      | some c3 =>
        if c1.length = 0 then
          .error (.valueError "found array with 0 samples")
        else
          let t1 := setCol t "YearsWithBank" (c1.map (scaleCell (colMean c1) (colVar c1)))
          let t2 := setCol t1 "MonthlyBankFees" (c2.map (scaleCell (colMean c2) (colVar c2)))
          let t3 := setCol t2 "TotalBalance" (c3.map (scaleCell (colMean c3) (colVar c3)))
          .ok (t3, [("YearsWithBank", colMean c1, colVar c1),
                    ("MonthlyBankFees", colMean c2, colVar c2),
                    ("TotalBalance", colMean c3, colVar c3)])

/-- One entry of the returned `transformers` dictionary. -/
inductive TransEntry where
  | encoder (classes : List String)
  | scaler (params : List (String × ℚ × ℚ))
deriving DecidableEq, Repr

/-- The function `preprocess_data` of `scripts/preprocessing.py`, stage by
stage in source order: copy, drop location columns, Total Charges handling,
rename, months-to-years division, fresh categorical encoding, numerical
standardization.  Returns the processed table and the transformers
dictionary. -/
def preprocess_data (df : Table) : Except PyError (Table × List (String × TransEntry)) :=
  let d0 := dropCols locationCols df
  match handleTotalCharges d0 with
  | .error e => .error e
  | .ok d1 =>
    let d2 := renameCols d1
    match convertTenure d2 with
    | .error e => .error e
    | .ok d3 =>
      match encodeCategoricals d3 with
      | .error e => .error e
      | .ok (d4, encs) =>
        match scaleNumericals d4 with
        | .error e => .error e
        | .ok (d5, params) =>
          .ok (d5, encs.map (fun p => (p.1, TransEntry.encoder p.2)) ++
                   [("numerical_scaler", TransEntry.scaler params)])

/-- The fixed feature list of `prepare_features` (lines 115-121). -/
def featureColsAll : List String :=
  ["YearsWithBank", "MonthlyBankFees", "TotalBalance",
   "DebitCard", "CreditCard", "OnlineBanking", "SecureLogin2FA",
   "AutomaticSavings", "FraudProtection", "CustomerSupport",
   "BillPay", "MobilePayments", "Contract", "PaperlessBilling",
   "PaymentMethod"]

/-- Row `i` of `df[cols].values`. -/
def rowAt (t : Table) (cols : List String) (i : Nat) : List Cell :=
  cols.map (fun c => ((getCol t c).getD []).getD i Cell.na)

/-- The function `prepare_features` of `scripts/preprocessing.py`: keep the
listed feature columns that exist, take `X = df[feature_cols].values` row by
row in input order, and `y = df['Churn Value'].values` (KeyError when the
label column is absent). -/
def prepare_features (df : Table) :
    Except PyError (List (List Cell) × List Cell × List String) :=
  let fcols := featureColsAll.filter (fun c => hasCol df c)
  match getCol df "Churn Value" with
  | none => .error (.keyError "Churn Value")
  | some ycol => .ok ((List.range (nrows df)).map (rowAt df fcols), ycol, fcols)

/-- The two dataframe objects alive inside `preprocess_data`: the caller's
argument `df` and the working copy `df_processed`. -/
structure PDState where
  caller : Table
  work : Table
deriving DecidableEq, Repr

/-- The value copy `df.copy()` of line 27. -/
def copyTable (t : Table) : Table :=
  t.map (fun p => (p.1, p.2))

/-- Mutation trace of `preprocess_data`: line 27 binds `df_processed` to a
copy of the argument, and every following statement of the source assigns into
`df_processed` only, which is what this definition mirrors; the caller slot is
only carried through. -/
def preprocess_data_traced (df : Table) :
    Except PyError (PDState × List (String × TransEntry)) :=
  let w := copyTable df
  let w0 := dropCols locationCols w
  match handleTotalCharges w0 with
  | .error e => .error e
  | .ok w1 =>
    let w2 := renameCols w1
    match convertTenure w2 with
    | .error e => .error e
    | .ok w3 =>
      match encodeCategoricals w3 with
      | .error e => .error e
      | .ok (w4, encs) =>
        match scaleNumericals w4 with
        | .error e => .error e
        | .ok (w5, params) =>
          .ok ({ caller := df, work := w5 },
               encs.map (fun p => (p.1, TransEntry.encoder p.2)) ++
                 [("numerical_scaler", TransEntry.scaler params)])

/-!
Embedding of `train_evaluate_model` (`scripts/churn_model.py`, lines 100-147).
The sklearn / xgboost estimators themselves are third-party numerical code; in
the source each one is constructed with `random_state=42`, which makes its
`fit` a deterministic function of the data, so an estimator is embedded as a
pair of pure functions (fit-then-predict labels, fit-then-predict positive
class probabilities).  Likewise the shuffle performed by
`train_test_split(random_state=42)` and the fold assignment of
`cross_val_score(cv=5)` (a no-shuffle splitter, which uses no randomness at
all) are deterministic; they enter the embedding as explicit arguments fixed
by the seed.
-/

def selectRows (X : List (List ℚ)) (idx : List Nat) : List (List ℚ) :=
  idx.map (fun i => X.getD i [])

def selectLab (y : List ℚ) (idx : List Nat) : List ℚ :=
  idx.map (fun i => y.getD i 0)

/-- Model of `train_test_split(X, y, test_size=t, random_state=42)`: the seed-42
permutation of the row indices is `perm`; the first `ceil(t * n)` permuted
indices form the test set and the rest the training set. -/
def train_test_split (perm : List Nat) (X : List (List ℚ)) (y : List ℚ)
    (testSize : ℚ) : List (List ℚ) × List (List ℚ) × List ℚ × List ℚ :=
  let nTest := (⌈testSize * (X.length : ℚ)⌉).toNat
  (selectRows X (perm.drop nTest), selectRows X (perm.take nTest),
   selectLab y (perm.drop nTest), selectLab y (perm.take nTest))

/-- A deterministic estimator: fit on the first two arguments, then predict
labels (respectively positive-class probabilities) on the third. -/
structure SkEstimator where
  fitPredict : List (List ℚ) → List ℚ → List (List ℚ) → List ℚ
  fitProba : List (List ℚ) → List ℚ → List (List ℚ) → List ℚ

def countPairs (yt yp : List ℚ) (a b : ℚ) : Nat :=
  ((yt.zip yp).filter (fun p => p.1 == a && p.2 == b)).length

def accuracy_score (yt yp : List ℚ) : ℚ :=
  if yt.length = 0 then 0
  else (((yt.zip yp).filter (fun p => p.1 == p.2)).length : ℚ) / (yt.length : ℚ)

def precision_score (yt yp : List ℚ) : ℚ :=
  let tp := countPairs yt yp 1 1
  let fp := countPairs yt yp 0 1
  if tp + fp = 0 then 0 else (tp : ℚ) / ((tp + fp : Nat) : ℚ)

def recall_score (yt yp : List ℚ) : ℚ :=
  let tp := countPairs yt yp 1 1
  let fn := countPairs yt yp 1 0
  if tp + fn = 0 then 0 else (tp : ℚ) / ((tp + fn : Nat) : ℚ)

def f1_score (yt yp : List ℚ) : ℚ :=
  let p := precision_score yt yp
  let r := recall_score yt yp
  if p + r = 0 then 0 else 2 * p * r / (p + r)

/-- Model of `roc_auc_score`: probability that a positive ranks above a negative, ties
counting one half; raises ValueError when only one class is present. -/
def roc_auc_score (yt prob : List ℚ) : Except PyError ℚ :=
  let pairs := yt.zip prob
  let pos := (pairs.filter (fun p => p.1 == 1)).map (fun p => p.2)
  let neg := (pairs.filter (fun p => p.1 == 0)).map (fun p => p.2)
  if pos.length = 0 ∨ neg.length = 0 then
    .error (.valueError "only one class present in y_true")
  else
    .ok ((pos.map (fun a =>
        (neg.map (fun b => if b < a then (1 : ℚ) else if a = b then 1 / 2 else 0)).sum)).sum /
      ((pos.length : ℚ) * (neg.length : ℚ)))

/-- The metrics dictionary of `ChurnPredictor.evaluate` (lines 64-75). -/
structure EvalMetrics where
  accuracy : ℚ
  prec : ℚ
  recallV : ℚ
  f1 : ℚ
  rocAuc : ℚ
deriving DecidableEq, Repr

/-- Evaluation `ChurnPredictor.evaluate` with the model fitted on `(Xf, yf)`. -/
def evalOn (e : SkEstimator) (Xf : List (List ℚ)) (yf : List ℚ)
    (X : List (List ℚ)) (y : List ℚ) : Except PyError EvalMetrics :=
  let yp := e.fitPredict Xf yf X
  let pr := e.fitProba Xf yf X
  match roc_auc_score y pr with
  | .error er => .error er
  | .ok auc =>
    .ok { accuracy := accuracy_score y yp, prec := precision_score y yp,
          recallV := recall_score y yp, f1 := f1_score y yp, rocAuc := auc }

/-- Model of `cross_val_score(model.model, X, y, cv=5)`: the estimator is re-fitted on
each fold's training part and scored (accuracy) on its test part.  `folds` is
the deterministic fold assignment the no-shuffle splitter derives from the
data. -/
def cross_val_score (e : SkEstimator) (X : List (List ℚ)) (y : List ℚ)
    (folds : List (List Nat × List Nat)) : List ℚ :=
  folds.map (fun f =>
    accuracy_score (selectLab y f.2)
      (e.fitPredict (selectRows X f.1) (selectLab y f.1) (selectRows X f.2)))

def listMean (l : List ℚ) : ℚ :=
  if l.length = 0 then 0 else l.sum / (l.length : ℚ)

def listVar (l : List ℚ) : ℚ :=
  if l.length = 0 then 0
  else ((l.map (fun x => (x - listMean l) ^ 2)).sum) / (l.length : ℚ)

/-- The model families of `ChurnPredictor.__init__`. -/
inductive ModelKind where
  | logistic
  | random_forest
  | xgboost
deriving DecidableEq, Repr

/-- Constructor `ChurnPredictor.__init__`: the string tag selects the model family and any
other tag raises ValueError (lines 23-30). -/
def churnPredictorInit (modelType : String) : Except PyError ModelKind :=
  if modelType = "logistic" then .ok .logistic
  else if modelType = "random_forest" then .ok .random_forest
  else if modelType = "xgboost" then .ok .xgboost
  else .error (.valueError "model_type must be logistic, random_forest, or xgboost")

/-- The result dictionary of `train_evaluate_model`.  `cv_std` in the source
is the square root of `cvVariance`; the variance is recorded, and the standard
deviation is determined by it. -/
structure TEMetrics where
  trainMetrics : EvalMetrics
  testMetrics : EvalMetrics
  cvMean : ℚ
  cvVariance : ℚ
deriving DecidableEq, Repr

/-- The function `train_evaluate_model` (lines 100-147): seeded split, model construction
by tag, training, train/test evaluation, five-fold cross-validation, metric
aggregation.  `backend` assigns each model family its (deterministic,
seed-42) estimator; `perm` is the seed-42 split permutation; `folds` the
deterministic cross-validation fold assignment. -/
def train_evaluate_model (backend : ModelKind → SkEstimator) (perm : List Nat)
    (folds : List (List Nat × List Nat)) (X : List (List ℚ)) (y : List ℚ)
    (featureNames : List String) (modelType : String) (testSize : ℚ) :
    Except PyError TEMetrics :=
  let s := train_test_split perm X y testSize
  match churnPredictorInit modelType with
  | .error e => .error e
  | .ok kind =>
    let est := backend kind
    match evalOn est s.1 s.2.2.1 s.1 s.2.2.1 with
    | .error e => .error e
    | .ok trm =>
      match evalOn est s.1 s.2.2.1 s.2.1 s.2.2.2 with
      | .error e => .error e
      | .ok tem =>
        let scores := cross_val_score est X y folds
        .ok { trainMetrics := trm, testMetrics := tem,
              cvMean := listMean scores, cvVariance := listVar scores }

/-- Training-shaped table whose Contract column is fitted with the classes
One year / Two year. -/
def c1TableA : Table :=
  [("Total Charges", [Cell.num 100, Cell.num 200]),
   ("Monthly Charges", [Cell.num 50, Cell.num 60]),
   ("Tenure Months", [Cell.num 12, Cell.num 24]),
   ("Contract", [Cell.str "One year", Cell.str "Two year"])]

/-- Inference-shaped table carrying a Contract value unseen in `c1TableA`. -/
def c1TableB : Table :=
  [("Total Charges", [Cell.num 100]),
   ("Monthly Charges", [Cell.num 50]),
   ("Tenure Months", [Cell.num 12]),
   ("Contract", [Cell.str "Month-to-month"])]

/-- Table whose balance column holds the currency string of the spec's
coercion example next to a true missing value. -/
def c2Table : Table :=
  [("Total Charges", [Cell.str "$75.50", Cell.na]),
   ("Monthly Charges", [Cell.num 50, Cell.num 60]),
   ("Tenure Months", [Cell.num 24, Cell.num 12])]

/-- Table with three missing balances: one row fully populated, one with a
missing fee, one with a missing tenure. -/
def c3Table : Table :=
  [("Total Charges", [Cell.na, Cell.na, Cell.na]),
   ("Monthly Charges", [Cell.num 40, Cell.na, Cell.num 40]),
   ("Tenure Months", [Cell.num 36, Cell.num 36, Cell.na])]

/-- Numeric-dtype cell: a number or a missing value. -/
def isNumOrNa : Cell → Bool
  | .num _ => true
  | .na => true
  | _ => false

/-- Table that lacks the structurally required Tenure Months column (and has
no missing balance, so the imputation branch cannot report it either). -/
def c5TableA : Table :=
  [("Total Charges", [Cell.num 100]),
   ("Monthly Charges", [Cell.num 50])]

/-- Table whose balance column mixes a malformed numeric string with a
number and has no true missing value. -/
def c5TableB : Table :=
  [("Total Charges", [Cell.str "$75.50", Cell.num 100]),
   ("Monthly Charges", [Cell.num 50, Cell.num 50]),
   ("Tenure Months", [Cell.num 12, Cell.num 12])]

/-- Canonical-looking table that carries features but no Churn Value
column. -/
def c7Table : Table :=
  [("YearsWithBank", [Cell.num 2]),
   ("MonthlyBankFees", [Cell.num 50]),
   ("TotalBalance", [Cell.num 1200])]

/-- Deterministic stand-in estimator for the C9 witness: predicts class 1
everywhere and reports the first feature as the churn probability. -/
def c9Backend : ModelKind → SkEstimator := fun _ =>
  { fitPredict := fun _ _ X2 => X2.map (fun _ => 1),
    fitProba := fun _ _ X2 => X2.map (fun r => r.headD 0) }

def c9X : List (List ℚ) := [[0], [1], [2], [3]]

def c9Y : List ℚ := [1, 0, 1, 0]

def c9Folds : List (List Nat × List Nat) := [([0, 1], [2, 3]), ([2, 3], [0, 1])]

def c9Result : TEMetrics :=
  { trainMetrics := { accuracy := 1/2, prec := 1/2, recallV := 1, f1 := 2/3, rocAuc := 0 },
    testMetrics := { accuracy := 1/2, prec := 1/2, recallV := 1, f1 := 2/3, rocAuc := 0 },
    cvMean := 1/2, cvVariance := 0 }

def c10Table : Table :=
  [("Total Charges", [Cell.num 600]),
   ("Monthly Charges", [Cell.num 25]),
   ("Tenure Months", [Cell.num 24]),
   ("PaymentMethod", [Cell.str "Mailed check"])]

def c10Result : PDState × List (String × TransEntry) :=
  (preprocess_data_traced c10Table).toOption.getD ({ caller := [], work := [] }, [])

/-- A well-formed table: every column has the common row count `n`. -/
def WF (t : Table) (n : Nat) : Prop :=
  ∀ p ∈ t, (p.2).length = n

def c6Table : Table :=
  [("Total Charges", [Cell.num 1200]),
   ("Monthly Charges", [Cell.num 50]),
   ("Tenure Months", [Cell.num 24]),
   ("Contract", [Cell.str "One year"]),
   ("Churn Value", [Cell.num 1])]

def c6Processed : Table :=
  ((preprocess_data c6Table).toOption.getD ([], [])).1

def c6Transformers : List (String × TransEntry) :=
  ((preprocess_data c6Table).toOption.getD ([], [])).2

def c6Prepared : List (List Cell) × List Cell × List String :=
  (prepare_features c6Processed).toOption.getD ([], [], [])

/-!
Claim theorems.
-/

/-- C1, counterexample: `preprocess_data` accepts no transformer store, so
after fitting a store on `c1TableA` (classes One year / Two year), processing
`c1TableB` — whose Contract value is unseen in that store — raises nothing
and silently assigns the fresh code 0. -/
theorem c1_counterexample :
    (preprocess_data c1TableA).toOption.map
        (fun r => r.2.lookup "Contract_encoder") =
      some (some (TransEntry.encoder ["One year", "Two year"])) ∧
    (preprocess_data c1TableB).toOption.map (fun r => getCol r.1 "Contract") =
      some (some [Cell.num 0]) ∧
    ¬ ("Month-to-month" ∈ ["One year", "Two year"]) := by
  refine ⟨by decide, by decide, by decide⟩

/-- C1, amended: in every successful run, each object-dtype categorical
column (outside the excluded identifiers) is encoded by a freshly fitted
label encoder whose classes are the sorted distinct values of that very
column, and that fresh encoder is what the transformers dictionary records —
there is no inference mode, no encoder reuse, and no unknown-category
error. -/
theorem c1_fresh_encoders :
    ∀ (t t2 : Table) (trs : List (String × List String)) (n : String) (c : List Cell),
      encodeCategoricals t = .ok (t2, trs) → (n, c) ∈ t →
      isObjectCol c = true → excludedCats.contains n = false →
      (n, encodedColumn c) ∈ t2 ∧ (n ++ "_encoder", colClasses c) ∈ trs := by
  intro t
  induction t with
  | nil => intro t2 trs n c h hm _ _; cases hm
  | cons hd rest ih =>
    obtain ⟨m, col⟩ := hd
    intro t2 trs n c h hm hobj hexc
    unfold encodeCategoricals at h
    rcases List.mem_cons.mp hm with heq | hmem
    · injection heq with hn hc
      subst hn; subst hc
      rw [hobj, hexc] at h
      simp only [Bool.not_false, Bool.and_true, if_pos] at h
      unfold encodeCol at h
      rcases hall : List.all c Cell.isStr with _ | _
      · rw [hall] at h; simp at h
      · rw [hall] at h
        simp only [if_pos] at h
        rcases henc : encodeCategoricals rest with e | pr
        · rw [henc] at h; cases h
        · obtain ⟨rest2, trs2⟩ := pr
          rw [henc] at h
          simp only [Except.ok.injEq, Prod.mk.injEq] at h
          obtain ⟨h1, h2⟩ := h
          subst h1; subst h2
          exact ⟨List.mem_cons_self _ _, List.mem_cons_self _ _⟩
    · rcases hcond : (isObjectCol col && !(excludedCats.contains m)) with _ | _
      · rw [hcond] at h
        simp only [Bool.false_eq_true, if_false] at h
        rcases henc : encodeCategoricals rest with e | pr
        · rw [henc] at h; cases h
        · obtain ⟨rest2, trs2⟩ := pr
          rw [henc] at h
          simp only [Except.ok.injEq, Prod.mk.injEq] at h
          obtain ⟨h1, h2⟩ := h
          subst h1; subst h2
          have hih := ih rest2 trs2 n c henc hmem hobj hexc
          exact ⟨List.mem_cons_of_mem _ hih.1, hih.2⟩
      · rw [hcond] at h
        simp only [if_pos] at h
        rcases hec : encodeCol col with e | pr2
        · rw [hec] at h; cases h
        · obtain ⟨c2, classes⟩ := pr2
          rw [hec] at h
          rcases henc : encodeCategoricals rest with e | pr
          · rw [henc] at h; cases h
          · obtain ⟨rest2, trs2⟩ := pr
            rw [henc] at h
            simp only [Except.ok.injEq, Prod.mk.injEq] at h
            obtain ⟨h1, h2⟩ := h
            subst h1; subst h2
            have hih := ih rest2 trs2 n c henc hmem hobj hexc
            exact ⟨List.mem_cons_of_mem _ hih.1, List.mem_cons_of_mem _ hih.2⟩

/-- C1, witness: the amended statement applied to a concrete two-value
column. -/
theorem c1_fresh_encoders_witness :
    encodeCategoricals [("Contract", [Cell.str "B", Cell.str "A"])] =
      .ok ([("Contract", [Cell.num 1, Cell.num 0])], [("Contract_encoder", ["A", "B"])]) ∧
    ("Contract", encodedColumn [Cell.str "B", Cell.str "A"]) ∈
      ([("Contract", [Cell.num 1, Cell.num 0])] : Table) ∧
    ("Contract_encoder", colClasses [Cell.str "B", Cell.str "A"]) ∈
      ([("Contract_encoder", ["A", "B"])] : List (String × List String)) := by
  have h : encodeCategoricals [("Contract", [Cell.str "B", Cell.str "A"])] =
      .ok ([("Contract", [Cell.num 1, Cell.num 0])], [("Contract_encoder", ["A", "B"])]) := by
    decide
  exact ⟨h, c1_fresh_encoders _ _ _ _ _ h (by decide) (by decide) (by decide)⟩

/-- C2, counterexample: the raw balance value "$75.50" does not normalize to
75.50 — no formatting characters are stripped, `pd.to_numeric` fails on it,
and the value is imputed as fee times tenure-months, here 50 * 24 = 1200. -/
theorem c2_counterexample :
    (handleTotalCharges c2Table).toOption.map (fun r => getCol r "Total Charges") =
      some (some [Cell.num (50 * 24), Cell.num (60 * 12)]) ∧
    (50 : ℚ) * 24 = 1200 ∧ (60 : ℚ) * 12 = 720 ∧
    (1200 : ℚ) ≠ 151 / 2 ∧ parseRat "$75.50" = none := by
  refine ⟨rfl, by norm_num, by norm_num, by norm_num, by decide⟩

/-- C2, amended: `preprocess_data` strips nothing from numeric strings, and it
coerces only the Total Charges column, only when that column already contains
a true missing value.  Under that coercion any string that is not a plain
decimal literal (such as "$75.50" or "N/A") becomes missing and is then
imputed row-wise as Monthly Charges times Tenure Months — never its face
value. -/
theorem c2_malformed_imputed :
    ∀ (f m : ℚ) (s : String), parseRat s = none →
      handleTotalCharges
          [("Total Charges", [Cell.str s, Cell.na]),
           ("Monthly Charges", [Cell.num f, Cell.num f]),
           ("Tenure Months", [Cell.num m, Cell.num m])] =
        .ok [("Total Charges", [Cell.num (f * m), Cell.num (f * m)]),
             ("Monthly Charges", [Cell.num f, Cell.num f]),
             ("Tenure Months", [Cell.num m, Cell.num m])] := by
  intro f m s hs
  unfold handleTotalCharges
  simp [getCol, countNa, Cell.isNa, coerceCell, hs, setCol, imputeList, cellMul]

/-- C2, witness: the amended statement at the spec's own example string
"N/A", with fee 40 and tenure 6 months. -/
theorem c2_malformed_imputed_witness :
    parseRat "N/A" = none ∧
    handleTotalCharges
        [("Total Charges", [Cell.str "N/A", Cell.na]),
         ("Monthly Charges", [Cell.num 40, Cell.num 40]),
         ("Tenure Months", [Cell.num 6, Cell.num 6])] =
      .ok [("Total Charges", [Cell.num (40 * 6), Cell.num (40 * 6)]),
           ("Monthly Charges", [Cell.num 40, Cell.num 40]),
           ("Tenure Months", [Cell.num 6, Cell.num 6])] ∧
    (40 : ℚ) * 6 = 240 := by
  have h : parseRat "N/A" = none := by decide
  exact ⟨h, c2_malformed_imputed 40 6 "N/A" h, by norm_num⟩

/-- C3, counterexample: for a row with tenure three years (raw value 36, the
raw tenure field is in months) and fee 40, the imputed balance is
40 * 36 = 1440, not 120; and a row whose fee (or tenure) is missing imputes a
missing value, not 0. -/
theorem c3_counterexample :
    (handleTotalCharges c3Table).toOption.map (fun r => getCol r "Total Charges") =
      some (some [Cell.num (40 * 36), Cell.na, Cell.na]) ∧
    (40 : ℚ) * 36 = 1440 ∧ (1440 : ℚ) ≠ 120 ∧ Cell.na ≠ Cell.num 0 := by
  refine ⟨rfl, by norm_num, by norm_num, by decide⟩

/-- C3, amended: a missing balance is imputed as recurring fee times the raw
tenure value, which at that point of the pipeline is still in months (the
months-to-years division happens later), so tenure 3 years enters as 36 and
gives 40 * 36 = 1440; and when the row's fee or tenure is itself missing the
imputed balance is missing (NaN), not 0. -/
theorem c3_imputation :
    ∀ (f m : ℚ),
      handleTotalCharges
          [("Total Charges", [Cell.na, Cell.na, Cell.na]),
           ("Monthly Charges", [Cell.num f, Cell.na, Cell.num f]),
           ("Tenure Months", [Cell.num m, Cell.num m, Cell.na])] =
        .ok [("Total Charges", [Cell.num (f * m), Cell.na, Cell.na]),
             ("Monthly Charges", [Cell.num f, Cell.na, Cell.num f]),
             ("Tenure Months", [Cell.num m, Cell.num m, Cell.na])] := by
  intro f m
  unfold handleTotalCharges
  simp [getCol, countNa, Cell.isNa, coerceCell, setCol, imputeList, cellMul]

/-- On a column of numbers and missing values, the division by 12 succeeds
and acts elementwise. -/
theorem mapExcept_div12 :
    ∀ (col : List Cell), col.all isNumOrNa = true →
      mapExcept div12 col = .ok (col.map div12Val) := by
  intro col
  induction col with
  | nil => intro _; rfl
  | cons c cs ih =>
    intro h
    rw [List.all_cons, Bool.and_eq_true] at h
    have hc : div12 c = .ok (div12Val c) := by
      cases c with
      | num q => rfl
      | na => rfl
      | str s => simp [isNumOrNa] at h
      | scaled x m v => simp [isNumOrNa] at h
    unfold mapExcept
    rw [hc, ih h.2]
    rfl

/-- C4: the tenure column (YearsWithBank after renaming, the raw Tenure
Months values) is converted from months to years by dividing every value by
12, and a raw value of 24 months yields 2.0 years. -/
theorem c4_tenure_conversion :
    ∀ (t : Table) (col : List Cell), getCol t "YearsWithBank" = some col →
      col.all isNumOrNa = true →
      convertTenure t = .ok (setCol t "YearsWithBank" (col.map div12Val)) ∧
      div12Val (Cell.num 24) = Cell.num 2 := by
  intro t col hcol hnum
  constructor
  · unfold convertTenure
    rw [hcol]
    dsimp only
    rw [mapExcept_div12 col hnum]
  · show Cell.num (24 / 12) = Cell.num 2
    norm_num

/-- C4, witness: the conversion applied to a one-row table with raw tenure
24 months. -/
theorem c4_tenure_conversion_witness :
    getCol [("YearsWithBank", [Cell.num 24])] "YearsWithBank" = some [Cell.num 24] ∧
    ([Cell.num 24].all isNumOrNa = true) ∧
    convertTenure [("YearsWithBank", [Cell.num 24])] =
      .ok (setCol [("YearsWithBank", [Cell.num 24])] "YearsWithBank"
        ([Cell.num 24].map div12Val)) ∧
    div12Val (Cell.num 24) = Cell.num 2 := by
  have h := c4_tenure_conversion [("YearsWithBank", [Cell.num 24])] [Cell.num 24] rfl rfl
  exact ⟨rfl, rfl, h.1, h.2⟩

/-- C5, counterexample: a table missing the required Tenure Months column is
rejected with a key error naming "YearsWithBank" — the canonical name the
rename could not produce — not the absent column; and a malformed numeric
string can make `preprocess_data` raise: with no true missing value the
balance column is never coerced, stays object-dtype, and label encoding
raises TypeError on the mixed column. -/
theorem c5_counterexample :
    getCol c5TableA "Tenure Months" = none ∧
    preprocess_data c5TableA = .error (.keyError "YearsWithBank") ∧
    "YearsWithBank" ≠ "Tenure Months" ∧
    preprocess_data c5TableB = .error (.typeError "unorderable types in object column") := by
  refine ⟨by decide, by rfl, by decide, by rfl⟩

/-- Lookup of a non-location column is unchanged by the location drop. -/
theorem getCol_dropCols_none :
    ∀ (t : Table) (names : List String) (n : String),
      getCol t n = none → getCol (dropCols names t) n = none := by
  intro t names n
  induction t with
  | nil => intro _; rfl
  | cons hd rest ih =>
    obtain ⟨m, c⟩ := hd
    intro h
    unfold getCol at h
    by_cases hm : m = n
    · rw [if_pos hm] at h; cases h
    · rw [if_neg hm] at h
      unfold dropCols
      by_cases hc : names.contains m = true
      · rw [if_pos hc]
        exact ih h
      · rw [if_neg hc]
        unfold getCol
        rw [if_neg hm]
        exact ih h

/-- C5, amended: a table from which the balance column Total Charges is
absent does fail fast with a key error naming that column (the first column
the source reads); but for other required columns the error names the first
internally-missed key, which for the tenure column is the canonical
YearsWithBank rather than the absent raw column, and malformed numeric
strings can raise TypeError at encoding when the uncoerced column mixes
strings with numbers. -/
theorem c5_missing_total_charges :
    ∀ (df : Table), getCol df "Total Charges" = none →
      preprocess_data df = .error (.keyError "Total Charges") := by
  intro df h
  have h2 : getCol (dropCols locationCols df) "Total Charges" = none :=
    getCol_dropCols_none df locationCols "Total Charges" h
  unfold preprocess_data handleTotalCharges
  simp only [h2]

/-- C5, witness: the amended statement on a table without Total Charges. -/
theorem c5_missing_total_charges_witness :
    getCol [("Monthly Charges", [Cell.num 5])] "Total Charges" = none ∧
    preprocess_data [("Monthly Charges", [Cell.num 5])] =
      .error (.keyError "Total Charges") := by
  exact ⟨rfl, c5_missing_total_charges [("Monthly Charges", [Cell.num 5])] rfl⟩

/-- C7, counterexample: on a table without a churn-label column,
`prepare_features` does not return `y = None` — it raises KeyError for
"Churn Value", so the call yields no result at all (its option view is
empty). -/
theorem c7_counterexample :
    prepare_features c7Table = .error (.keyError "Churn Value") ∧
    (prepare_features c7Table).toOption = none := by
  exact ⟨rfl, rfl⟩

/-- C7, amended: `prepare_features` unconditionally reads the Churn Value
column; when it is absent the call fails with KeyError naming it instead of
returning a feature matrix with `y = None`. -/
theorem c7_label_required :
    ∀ (t : Table), getCol t "Churn Value" = none →
      prepare_features t = .error (.keyError "Churn Value") := by
  intro t h
  unfold prepare_features
  rw [h]

/-- C7, witness: the amended statement on a concrete unlabeled table. -/
theorem c7_label_required_witness :
    getCol [("Contract", [Cell.num 0])] "Churn Value" = none ∧
    prepare_features [("Contract", [Cell.num 0])] =
      .error (.keyError "Churn Value") := by
  exact ⟨rfl, c7_label_required [("Contract", [Cell.num 0])] rfl⟩

/-- C8: `preprocess_data` is a deterministic computation of its input alone —
the source threads no randomness and no hidden state through it — so two
calls on the same input table return identical results; byte-identical
output tables in particular.  (The source function takes no transformer
store: the fixed previously-fitted store of the claim cannot influence the
result, and repeated calls agree unconditionally.) -/
theorem c8_idempotent_inference :
    ∀ (t1 t2 : Table), t1 = t2 → preprocess_data t1 = preprocess_data t2 := by
  intro t1 t2 h
  rw [h]

/-- C8, witness: two calls on the same concrete table. -/
theorem c8_idempotent_inference_witness :
    ([("Total Charges", [Cell.num 90]),
      ("Monthly Charges", [Cell.num 30]),
      ("Tenure Months", [Cell.num 3])] : Table) =
      [("Total Charges", [Cell.num 90]),
       ("Monthly Charges", [Cell.num 30]),
       ("Tenure Months", [Cell.num 3])] ∧
    preprocess_data
        [("Total Charges", [Cell.num 90]),
         ("Monthly Charges", [Cell.num 30]),
         ("Tenure Months", [Cell.num 3])] =
      preprocess_data
        [("Total Charges", [Cell.num 90]),
         ("Monthly Charges", [Cell.num 30]),
         ("Tenure Months", [Cell.num 3])] := by
  exact ⟨rfl, c8_idempotent_inference _ _ rfl⟩

/-- C9: `train_evaluate_model` is a deterministic function of the data, the
model tag, and the seed-fixed split and fold assignments — every random
choice in the source is pinned by `random_state=42` (split, estimators) or by
the no-shuffle cross-validation splitter — so two runs on identical inputs
return identical `cv_mean` and `cv_std` (the latter determined as the square
root of `cvVariance`). -/
theorem c9_cv_reproducible :
    ∀ (backend : ModelKind → SkEstimator) (perm : List Nat)
      (folds : List (List Nat × List Nat)) (X : List (List ℚ)) (y : List ℚ)
      (fn : List String) (mt : String) (ts : ℚ) (m1 m2 : TEMetrics),
      train_evaluate_model backend perm folds X y fn mt ts = .ok m1 →
      train_evaluate_model backend perm folds X y fn mt ts = .ok m2 →
      m1.cvMean = m2.cvMean ∧ m1.cvVariance = m2.cvVariance := by
  intro backend perm folds X y fn mt ts m1 m2 h1 h2
  rw [h1] at h2
  injection h2 with h
  rw [h]
  exact ⟨rfl, rfl⟩

/-- C9, witness: two runs on a concrete four-row data set agree on the
cross-validation aggregates. -/
theorem c9_cv_reproducible_witness :
    train_evaluate_model c9Backend [0, 1, 2, 3] c9Folds c9X c9Y ["f"] "xgboost" (1 / 2) =
      .ok c9Result ∧
    c9Result.cvMean = c9Result.cvMean ∧ c9Result.cvVariance = c9Result.cvVariance := by
  have h : train_evaluate_model c9Backend [0, 1, 2, 3] c9Folds c9X c9Y ["f"] "xgboost" (1 / 2) =
      .ok c9Result := by
    norm_num [train_evaluate_model, train_test_split, selectRows, selectLab, churnPredictorInit,
      evalOn, roc_auc_score, accuracy_score, precision_score, recall_score, f1_score, countPairs,
      cross_val_score, listMean, listVar, c9Backend, c9X, c9Y, c9Folds, c9Result,
      List.zip, List.zipWith, List.filter, List.map, List.sum, List.foldr, List.getD,
      show (((0 : ℚ) == (1 : ℚ))) = false from rfl, show (((1 : ℚ) == (1 : ℚ))) = true from rfl,
      show (((0 : ℚ) == (0 : ℚ))) = true from rfl, show (((1 : ℚ) == (0 : ℚ))) = false from rfl,
      show Int.toNat 2 = 2 from rfl]
    rfl
  exact ⟨h, c9_cv_reproducible c9Backend [0, 1, 2, 3] c9Folds c9X c9Y ["f"] "xgboost" (1 / 2)
    c9Result c9Result h h⟩

/-- The copy taken on line 27 is a value copy of the table. -/
theorem copyTable_id : ∀ (t : Table), copyTable t = t := by
  intro t
  induction t with
  | nil => rfl
  | cons hd rest ih =>
    unfold copyTable at ih ⊢
    rw [List.map_cons, ih]

/-- C10: `preprocess_data` never mutates its argument — line 27 copies the
input and every subsequent assignment of the source targets the copy
`df_processed` — so after a successful traced run the caller's table slot
still holds the original table, and the working slot holds exactly the
result `preprocess_data` reports. -/
theorem c10_caller_preserved :
    ∀ (df : Table) (r : PDState × List (String × TransEntry)),
      preprocess_data_traced df = .ok r →
      r.1.caller = df ∧ preprocess_data df = .ok (r.1.work, r.2) := by
  intro df r h
  unfold preprocess_data_traced at h
  rw [copyTable_id] at h
  unfold preprocess_data
  dsimp only at h ⊢
  cases h1 : handleTotalCharges (dropCols locationCols df) with
  | error e => rw [h1] at h; cases h
  | ok d1 =>
    rw [h1] at h
    dsimp only at h ⊢
    cases h2 : convertTenure (renameCols d1) with
    | error e => rw [h2] at h; cases h
    | ok d3 =>
      rw [h2] at h
      dsimp only at h ⊢
      cases h3 : encodeCategoricals d3 with
      | error e => rw [h3] at h; cases h
      | ok p4 =>
        obtain ⟨d4, encs⟩ := p4
        rw [h3] at h
        dsimp only at h ⊢
        cases h4 : scaleNumericals d4 with
        | error e => rw [h4] at h; cases h
        | ok p5 =>
          obtain ⟨d5, params⟩ := p5
          rw [h4] at h
          dsimp only at h ⊢
          injection h with h5
          rw [← h5]
          exact ⟨rfl, rfl⟩

/-- C10, witness: a concrete successful run whose caller slot is returned
untouched. -/
theorem c10_caller_preserved_witness :
    preprocess_data_traced c10Table = .ok c10Result ∧
    c10Result.1.caller = c10Table ∧
    preprocess_data c10Table = .ok (c10Result.1.work, c10Result.2) := by
  have h : preprocess_data_traced c10Table = .ok c10Result := by rfl
  have h2 := c10_caller_preserved c10Table c10Result h
  exact ⟨h, h2.1, h2.2⟩

theorem WF_tail {hd : String × List Cell} {rest : Table} {n : Nat}
    (h : WF (hd :: rest) n) : WF rest n :=
  fun p hp => h p (List.mem_cons_of_mem _ hp)

theorem getCol_length :
    ∀ (t : Table) (n : Nat) (c : String) (col : List Cell),
      WF t n → getCol t c = some col → col.length = n := by
  intro t
  induction t with
  | nil => intro n c col _ h; cases h
  | cons hd rest ih =>
    obtain ⟨m, cc⟩ := hd
    intro n c col hwf h
    unfold getCol at h
    by_cases hm : m = c
    · rw [if_pos hm] at h
      injection h with h
      rw [← h]
      exact hwf (m, cc) (List.mem_cons_self _ _)
    · rw [if_neg hm] at h
      exact ih n c col (WF_tail hwf) h

theorem WF_dropCols :
    ∀ (t : Table) (names : List String) (n : Nat),
      WF t n → WF (dropCols names t) n := by
  intro t names
  induction t with
  | nil => intro n _; exact fun p hp => absurd hp (List.not_mem_nil p)
  | cons hd rest ih =>
    intro n hwf
    unfold dropCols
    by_cases hc : names.contains hd.1 = true
    · rw [show (hd : String × List Cell) = (hd.1, hd.2) from rfl, if_pos hc]
      exact ih n (WF_tail hwf)
    · rw [show (hd : String × List Cell) = (hd.1, hd.2) from rfl, if_neg hc]
      intro p hp
      rcases List.mem_cons.mp hp with heq | hmem
      · rw [heq]; exact hwf hd (List.mem_cons_self _ _)
      · exact ih n (WF_tail hwf) p hmem

theorem WF_renameCols :
    ∀ (t : Table) (n : Nat), WF t n → WF (renameCols t) n := by
  intro t n hwf p hp
  unfold renameCols at hp
  rcases List.mem_map.mp hp with ⟨q, hq, hmap⟩
  rw [← hmap]
  exact hwf q hq

theorem WF_setCol :
    ∀ (t : Table) (name : String) (col : List Cell) (n : Nat),
      WF t n → col.length = n → WF (setCol t name col) n := by
  intro t name col
  induction t with
  | nil =>
    intro n _ hlen p hp
    rcases List.mem_cons.mp hp with heq | hmem
    · rw [heq]; exact hlen
    · cases hmem
  | cons hd rest ih =>
    obtain ⟨m, cc⟩ := hd
    intro n hwf hlen
    unfold setCol
    by_cases hm : m = name
    · rw [if_pos hm]
      intro p hp
      rcases List.mem_cons.mp hp with heq | hmem
      · rw [heq]; exact hlen
      · exact WF_tail hwf p hmem
    · rw [if_neg hm]
      intro p hp
      rcases List.mem_cons.mp hp with heq | hmem
      · rw [heq]; exact hwf (m, cc) (List.mem_cons_self _ _)
      · exact ih n (WF_tail hwf) hlen p hmem

theorem imputeList_length :
    ∀ (a b c : List Cell) (r : List Cell),
      a.length = b.length → a.length = c.length →
      imputeList a b c = .ok r → r.length = a.length := by
  intro a
  induction a with
  | nil =>
    intro b c r _ _ h
    injection h with h
    rw [← h]
  | cons x xs ih =>
    intro b c r hb hc h
    cases b with
    | nil => cases hb
    | cons y ys =>
      cases c with
      | nil => cases hc
      | cons z zs =>
        unfold imputeList at h
        rcases hv : (if x.isNa then cellMul y z else .ok x) with e | v
        · rw [hv] at h; cases h
        · rw [hv] at h
          rcases hr : imputeList xs ys zs with e | vs
          · rw [hr] at h; cases h
          · rw [hr] at h
            injection h with h
            rw [← h]
            have := ih ys zs vs (Nat.succ_injective hb) (Nat.succ_injective hc) hr
            simp [List.length_cons, this]

theorem WF_handleTotalCharges :
    ∀ (t : Table) (n : Nat) (r : Table),
      WF t n → handleTotalCharges t = .ok r → WF r n := by
  intro t n r hwf h
  unfold handleTotalCharges at h
  rcases hcol : getCol t "Total Charges" with _ | col
  · rw [hcol] at h; cases h
  · rw [hcol] at h
    dsimp only at h
    have hcollen : col.length = n := getCol_length t n _ col hwf hcol
    by_cases hna : countNa col = 0
    · rw [if_pos hna] at h
      injection h with h
      rw [← h]; exact hwf
    · rw [if_neg hna] at h
      have hclen : (col.map coerceCell).length = n := by
        rw [List.length_map]; exact hcollen
      have hwf1 : WF (setCol t "Total Charges" (col.map coerceCell)) n :=
        WF_setCol t _ _ n hwf hclen
      rcases hmc : getCol (setCol t "Total Charges" (col.map coerceCell)) "Monthly Charges"
          with _ | mc
      · simp only [hmc] at h
        cases h
      · simp only [hmc] at h
        rcases htm : getCol (setCol t "Total Charges" (col.map coerceCell)) "Tenure Months"
            with _ | tm
        · simp only [htm] at h
          cases h
        · simp only [htm] at h
          rcases himp : imputeList (col.map coerceCell) mc tm with e | imputed
          · simp only [himp] at h
            cases h
          · simp only [himp] at h
            injection h with h
            rw [← h]
            have hmclen : mc.length = n := getCol_length _ n _ mc hwf1 hmc
            have htmlen : tm.length = n := getCol_length _ n _ tm hwf1 htm
            have hilen : imputed.length = n := by
              rw [imputeList_length (col.map coerceCell) mc tm imputed
                (by rw [hclen, hmclen]) (by rw [hclen, htmlen]) himp]
              exact hclen
            exact WF_setCol _ _ _ n hwf1 hilen

theorem mapExcept_length :
    ∀ (f : Cell → Except PyError Cell) (l r : List Cell),
      mapExcept f l = .ok r → r.length = l.length := by
  intro f l
  induction l with
  | nil =>
    intro r h
    injection h with h
    rw [← h]
  | cons x xs ih =>
    intro r h
    unfold mapExcept at h
    rcases hv : f x with e | v
    · rw [hv] at h; cases h
    · rw [hv] at h
      rcases hr : mapExcept f xs with e | vs
      · rw [hr] at h; cases h
      · rw [hr] at h
        injection h with h
        rw [← h]
        simp [List.length_cons, ih vs hr]

theorem WF_convertTenure :
    ∀ (t : Table) (n : Nat) (r : Table),
      WF t n → convertTenure t = .ok r → WF r n := by
  intro t n r hwf h
  unfold convertTenure at h
  rcases hcol : getCol t "YearsWithBank" with _ | col
  · rw [hcol] at h; cases h
  · rw [hcol] at h
    dsimp only at h
    rcases hm : mapExcept div12 col with e | col2
    · rw [hm] at h; cases h
    · rw [hm] at h
      injection h with h
      rw [← h]
      have : col2.length = n := by
        rw [mapExcept_length div12 col col2 hm]
        exact getCol_length t n _ col hwf hcol
      exact WF_setCol t _ _ n hwf this

theorem WF_encodeCategoricals :
    ∀ (t : Table) (n : Nat) (t2 : Table) (trs : List (String × List String)),
      WF t n → encodeCategoricals t = .ok (t2, trs) → WF t2 n := by
  intro t
  induction t with
  | nil =>
    intro n t2 trs _ h
    injection h with h
    injection h with h1 h2
    rw [← h1]
    exact fun p hp => absurd hp (List.not_mem_nil p)
  | cons hd rest ih =>
    obtain ⟨m, c⟩ := hd
    intro n t2 trs hwf h
    unfold encodeCategoricals at h
    by_cases hcond : (isObjectCol c && !(excludedCats.contains m)) = true
    · rw [if_pos hcond] at h
      rcases hec : encodeCol c with e | pr2
      · rw [hec] at h; cases h
      · obtain ⟨c2, classes⟩ := pr2
        rw [hec] at h
        rcases henc : encodeCategoricals rest with e | pr
        · rw [henc] at h; cases h
        · obtain ⟨rest2, trs2⟩ := pr
          rw [henc] at h
          injection h with h
          injection h with h1 h2
          rw [← h1]
          intro p hp
          rcases List.mem_cons.mp hp with heq | hmem
          · rw [heq]
            have hc2 : c2 = encodedColumn c := by
              unfold encodeCol at hec
              by_cases hall : c.all Cell.isStr = true
              · rw [if_pos hall] at hec
                injection hec with hec
                injection hec with hx hy
                rw [← hx]
              · rw [if_neg hall] at hec; cases hec
            dsimp only
            rw [hc2]
            unfold encodedColumn
            rw [List.length_map]
            exact hwf (m, c) (List.mem_cons_self _ _)
          · exact ih n rest2 trs2 (WF_tail hwf) henc p hmem
    · rw [if_neg hcond] at h
      rcases henc : encodeCategoricals rest with e | pr
      · rw [henc] at h; cases h
      · obtain ⟨rest2, trs2⟩ := pr
        rw [henc] at h
        injection h with h
        injection h with h1 h2
        rw [← h1]
        intro p hp
        rcases List.mem_cons.mp hp with heq | hmem
        · rw [heq]
          exact hwf (m, c) (List.mem_cons_self _ _)
        · exact ih n rest2 trs2 (WF_tail hwf) henc p hmem

theorem WF_scaleNumericals :
    ∀ (t : Table) (n : Nat) (t2 : Table) (ps : List (String × ℚ × ℚ)),
      WF t n → scaleNumericals t = .ok (t2, ps) → WF t2 n := by
  intro t n t2 ps hwf h
  unfold scaleNumericals at h
  rcases h1 : getCol t "YearsWithBank" with _ | c1
  · rw [h1] at h; cases h
  · rw [h1] at h
    rcases h2 : getCol t "MonthlyBankFees" with _ | c2
    · rw [h2] at h; cases h
    · rw [h2] at h
      rcases h3 : getCol t "TotalBalance" with _ | c3
      · rw [h3] at h; cases h
      · rw [h3] at h
        dsimp only at h
        by_cases hz : c1.length = 0
        · rw [if_pos hz] at h; cases h
        · rw [if_neg hz] at h
          injection h with h
          injection h with ha hb
          rw [← ha]
          have l1 : c1.length = n := getCol_length t n _ c1 hwf h1
          have l2 : c2.length = n := getCol_length t n _ c2 hwf h2
          have l3 : c3.length = n := getCol_length t n _ c3 hwf h3
          have w1 := WF_setCol t "YearsWithBank"
            (c1.map (scaleCell (colMean c1) (colVar c1))) n hwf
            (by rw [List.length_map]; exact l1)
          have w2 := WF_setCol _ "MonthlyBankFees"
            (c2.map (scaleCell (colMean c2) (colVar c2))) n w1
            (by rw [List.length_map]; exact l2)
          exact WF_setCol _ "TotalBalance"
            (c3.map (scaleCell (colMean c3) (colVar c3))) n w2
            (by rw [List.length_map]; exact l3)

/-- Row-count preservation: `preprocess_data` keeps the common row count of every column. -/
theorem WF_preprocess_data :
    ∀ (df : Table) (n : Nat) (p : Table) (tr : List (String × TransEntry)),
      WF df n → preprocess_data df = .ok (p, tr) → WF p n := by
  intro df n p tr hwf h
  unfold preprocess_data at h
  dsimp only at h
  rcases h1 : handleTotalCharges (dropCols locationCols df) with e | d1
  · rw [h1] at h; cases h
  · rw [h1] at h
    dsimp only at h
    rcases h2 : convertTenure (renameCols d1) with e | d3
    · rw [h2] at h; cases h
    · rw [h2] at h
      dsimp only at h
      rcases h3 : encodeCategoricals d3 with e | p4
      · rw [h3] at h; cases h
      · obtain ⟨d4, encs⟩ := p4
        rw [h3] at h
        dsimp only at h
        rcases h4 : scaleNumericals d4 with e | p5
        · rw [h4] at h; cases h
        · obtain ⟨d5, params⟩ := p5
          rw [h4] at h
          dsimp only at h
          injection h with h
          injection h with ha hb
          have w0 := WF_dropCols df locationCols n hwf
          have w1 := WF_handleTotalCharges _ n d1 w0 h1
          have w2 := WF_convertTenure _ n d3 (WF_renameCols d1 n w1) h2
          have w3 := WF_encodeCategoricals _ n d4 encs w2 h3
          have w4 := WF_scaleNumericals _ n d5 params w3 h4
          rw [← ha]
          exact w4

theorem nrows_of_WF :
    ∀ (t : Table) (n : Nat), WF t n → t ≠ [] → nrows t = n := by
  intro t n hwf hne
  cases t with
  | nil => exact absurd rfl hne
  | cons hd rest =>
    unfold nrows
    exact hwf hd (List.mem_cons_self _ _)

/-- C6: for a well-formed raw table with `n` rows that passes normalization
and preparation, the feature matrix and label vector both have exactly `n`
rows, and the matrix is precisely the row-indexed projection of the
processed table — row `i` of `X` is row `i` of the canonical table, so no
row is dropped or reordered by either stage. -/
theorem c6_row_preservation :
    ∀ (df p : Table) (tr : List (String × TransEntry)) (X : List (List Cell))
      (y : List Cell) (fc : List String) (n : Nat),
      WF df n → preprocess_data df = .ok (p, tr) →
      prepare_features p = .ok (X, y, fc) →
      X.length = n ∧ y.length = n ∧ X = (List.range n).map (rowAt p fc) := by
  intro df p tr X y fc n hwf hp hq
  have hwfp : WF p n := WF_preprocess_data df n p tr hwf hp
  unfold prepare_features at hq
  rcases hy : getCol p "Churn Value" with _ | ycol
  · rw [hy] at hq; cases hq
  · rw [hy] at hq
    dsimp only at hq
    injection hq with hq
    injection hq with hX hq2
    injection hq2 with hY hfc
    have hpne : p ≠ [] := by
      intro hnil
      rw [hnil] at hy
      cases hy
    have hn : nrows p = n := nrows_of_WF p n hwfp hpne
    refine ⟨?_, ?_, ?_⟩
    · rw [← hX, List.length_map, List.length_range, hn]
    · rw [← hY]
      exact getCol_length p n _ ycol hwfp hy
    · rw [← hX, ← hfc, hn]

/-- C6, witness: the row-preservation statement on a concrete one-row
table. -/
theorem c6_row_preservation_witness :
    WF c6Table 1 ∧
    preprocess_data c6Table = .ok (c6Processed, c6Transformers) ∧
    prepare_features c6Processed = .ok (c6Prepared.1, c6Prepared.2.1, c6Prepared.2.2) ∧
    (c6Prepared.1.length = 1 ∧ c6Prepared.2.1.length = 1 ∧
      c6Prepared.1 = (List.range 1).map (rowAt c6Processed c6Prepared.2.2)) := by
  have hwf : WF c6Table 1 := by unfold WF; decide
  have hp : preprocess_data c6Table = .ok (c6Processed, c6Transformers) := by rfl
  have hq : prepare_features c6Processed =
      .ok (c6Prepared.1, c6Prepared.2.1, c6Prepared.2.2) := by rfl
  exact ⟨hwf, hp, hq, c6_row_preservation c6Table c6Processed c6Transformers
    c6Prepared.1 c6Prepared.2.1 c6Prepared.2.2 1 hwf hp hq⟩
